import Mathlib

/-!
Shallow embedding of the campaign-portfolio optimization and
performance-prediction core of the events-marketing-ai repository.

Sources embedded:
- `src/services/campaign_optimizer.py` (candidate generation, greedy
  budget allocation),
- `src/services/enhanced_recommendation_engine.py` (10%-partial-fill
  budget allocation, knowledge application),
- `src/services/prediction_engine.py` (reach/conversion overlap
  adjustment, goal-achievement probability),
- `src/main.py` (budget-allocation breakdown) and
  `src/models/event_model.py` (field validation).

Numbers: Python ints and floats are modelled as `ℤ` and `ℚ`; Python's
`int(x)` truncation toward zero is `pyInt`.  Descriptive string fields
(descriptions, timelines, resource lists) that are only passed through
are omitted; every field that any computation reads is kept.
-/

/-- Python `int(x)`: truncation toward zero. -/
def pyInt (q : ℚ) : ℤ := if 0 ≤ q then ⌊q⌋ else -⌊-q⌋

/-- Campaign channels (`CampaignChannel` enum in `event_model.py`);
`channel_value` gives the string value of each member. -/
inductive CampaignChannel where
  | email_marketing
  | social_media
  | paid_advertising
  | content_marketing
  | partner_promotion
  | organic_search
  | direct_outreach
  | event_listing
deriving DecidableEq

def channel_value : CampaignChannel → String
  | .email_marketing => "email_marketing"
  | .social_media => "social_media"
  | .paid_advertising => "paid_advertising"
  | .content_marketing => "content_marketing"
  | .partner_promotion => "partner_promotion"
  | .organic_search => "organic_search"
  | .direct_outreach => "direct_outreach"
  | .event_listing => "event_listing"

/-- Candidate / recommendation record of `campaign_optimizer.py` and
`prediction_engine.py` (the dict built in `_generate_free_campaigns` /
`_generate_paid_campaigns`, finalized as `CampaignRecommendation`). -/
structure Campaign where
  channel : CampaignChannel
  is_paid : Bool
  estimated_cost : ℚ
  estimated_reach : ℤ
  estimated_ctr : ℚ
  estimated_cvr : ℚ
  estimated_conversions : ℤ
  estimated_cpa : ℤ
  confidence_score : ℚ
deriving DecidableEq

/-- Media record consumed by `_generate_paid_campaigns`
(`cost_range['min']`, `reach_potential`, `average_ctr`, `average_cvr`,
`average_cpa`, `compatibility_score`). -/
structure Media where
  cost_min : ℤ
  reach_potential : ℤ
  average_ctr : ℚ
  average_cvr : ℚ
  average_cpa : ℤ
  compatibility_score : ℚ
deriving DecidableEq

/-- The free candidates of `CampaignOptimizer._generate_free_campaigns`:
email (reach `min 5000 (20n)`, historical ctr/cvr), social
(reach `min 2000 (10n)`, ctr 1.5, cvr 3.0), organic search
(reach `min 1000 (5n)`, ctr 3.0, cvr 8.0); `n` is
`event_request.target_attendees`, `hist_ctr`/`hist_cvr` come from the
historical-data dict (`average_ctr`/`average_cvr`). -/
def generate_free_campaigns (n : ℤ) (hist_ctr hist_cvr : ℚ) : List Campaign :=
  let email_reach : ℤ := min 5000 (n * 20)
  let email : Campaign :=
    { channel := .email_marketing, is_paid := false, estimated_cost := 0
      estimated_reach := email_reach
      estimated_ctr := hist_ctr, estimated_cvr := hist_cvr
      estimated_conversions :=
        pyInt ((email_reach : ℚ) * (hist_ctr / 100) * (hist_cvr / 100))
      estimated_cpa := 0, confidence_score := 8/10 }
  let social_reach : ℤ := min 2000 (n * 10)
  let social : Campaign :=
    { channel := .social_media, is_paid := false, estimated_cost := 0
      estimated_reach := social_reach
      estimated_ctr := 3/2, estimated_cvr := 3
      estimated_conversions :=
        pyInt ((social_reach : ℚ) * ((3/2 : ℚ) / 100) * ((3 : ℚ) / 100))
      estimated_cpa := 0, confidence_score := 6/10 }
  let organic_reach : ℤ := min 1000 (n * 5)
  let organic : Campaign :=
    { channel := .organic_search, is_paid := false, estimated_cost := 0
      estimated_reach := organic_reach
      estimated_ctr := 3, estimated_cvr := 8
      estimated_conversions :=
        pyInt ((organic_reach : ℚ) * ((3 : ℚ) / 100) * ((8 : ℚ) / 100))
      estimated_cpa := 0, confidence_score := 7/10 }
  [email, social, organic]

/-- One media-ad candidate of `CampaignOptimizer._generate_paid_campaigns`:
cost `min media.cost_min (budget*0.4)`, conversions
`int(reach*ctr/100*cvr/100)`, cpa `int(cost/conversions)` when
conversions are positive, else the media's average cpa. -/
def media_paid_campaign (budget : ℚ) (m : Media) : Campaign :=
  let cost : ℚ := min (m.cost_min : ℚ) (budget * (4/10))
  let conv : ℤ :=
    pyInt ((m.reach_potential : ℚ) * (m.average_ctr / 100) * (m.average_cvr / 100))
  { channel := .paid_advertising, is_paid := true, estimated_cost := cost
    estimated_reach := m.reach_potential
    estimated_ctr := m.average_ctr, estimated_cvr := m.average_cvr
    estimated_conversions := conv
    estimated_cpa := if conv > 0 then pyInt (cost / (conv : ℚ)) else m.average_cpa
    confidence_score := m.compatibility_score }

/-- The fixed listing-ads candidate of `_generate_paid_campaigns`:
cost `min 200000 (budget*0.3)`, reach 3000, ctr 3.5, cvr 6.0. -/
def listing_campaign (budget : ℚ) : Campaign :=
  let cost : ℚ := min 200000 (budget * (3/10))
  let conv : ℤ := pyInt ((3000 : ℚ) * ((7/2 : ℚ) / 100) * ((6 : ℚ) / 100))
  { channel := .paid_advertising, is_paid := true, estimated_cost := cost
    estimated_reach := 3000
    estimated_ctr := 7/2, estimated_cvr := 6
    estimated_conversions := conv
    estimated_cpa := if conv > 0 then pyInt (cost / (conv : ℚ)) else 10000
    confidence_score := 3/4 }

/-- `CampaignOptimizer._generate_paid_campaigns`: one candidate per
cost-efficient media entry, then the listing-ads candidate. -/
def generate_paid_campaigns (budget : ℚ) (media : List Media) : List Campaign :=
  media.map (media_paid_campaign budget) ++ [listing_campaign budget]

/-- Sort key of `CampaignOptimizer._optimize_budget_allocation`
(line 298): `x["estimated_cpa"] if x["estimated_conversions"] > 0 else
float('inf')`; infinity is `⊤` in `WithTop ℤ`. -/
def cpa_sort_key (c : Campaign) : WithTop ℤ :=
  if c.estimated_conversions > 0 then (c.estimated_cpa : WithTop ℤ) else ⊤

/-- Stable ascending sort of the paid candidates by `cpa_sort_key`
(Python `list.sort` is stable; `List.mergeSort` is the stable sort). -/
def sort_paid_campaigns (l : List Campaign) : List Campaign :=
  l.mergeSort (fun a b => decide (cpa_sort_key a ≤ cpa_sort_key b))

/-- The in-place adjustment of a selected campaign in
`CampaignOptimizer._optimize_budget_allocation` (lines 303-308):
`adjusted_cost = min(estimated_cost, remaining_budget)`,
`cost_ratio = adjusted_cost / estimated_cost`, and reach and
conversions are scaled by the ratio and truncated. -/
def co_adjusted (c : Campaign) (remaining : ℚ) : Campaign :=
  { c with estimated_cost := min c.estimated_cost remaining
           estimated_reach :=
             pyInt ((c.estimated_reach : ℚ) *
               (min c.estimated_cost remaining / c.estimated_cost))
           estimated_conversions :=
             pyInt ((c.estimated_conversions : ℚ) *
               (min c.estimated_cost remaining / c.estimated_cost)) }

/-- Selection loop of `CampaignOptimizer._optimize_budget_allocation`
(lines 300-314).  A campaign is taken when the remaining budget covers
its cost, adjusted by `co_adjusted`, and the loop breaks once the
remaining budget is exhausted.  `none` models the `ZeroDivisionError`
Python raises computing `cost_ratio` when `estimated_cost` is `0` (the
`0/0` is unguarded in the source). -/
def co_alloc_go : List Campaign → ℚ → List Campaign → Option (List Campaign)
  | [], _, sel => some sel
  | c :: rest, remaining, sel =>
    if remaining ≥ c.estimated_cost then
      if c.estimated_cost = 0 then none
      else
        if remaining - min c.estimated_cost remaining ≤ 0 then
          some (sel ++ [co_adjusted c remaining])
        else
          co_alloc_go rest (remaining - min c.estimated_cost remaining)
            (sel ++ [co_adjusted c remaining])
    else co_alloc_go rest remaining sel

/-- `CampaignOptimizer._optimize_budget_allocation`: free candidates are
all kept, paid candidates are sorted by `cpa_sort_key` and selected
greedily against the budget. -/
def co_optimize_budget_allocation (candidates : List Campaign) (budget : ℚ) :
    Option (List Campaign) :=
  let free_campaigns := candidates.filter (fun c => !c.is_paid)
  let paid_campaigns := candidates.filter (fun c => c.is_paid)
  (co_alloc_go (sort_paid_campaigns paid_campaigns) budget []).map
    (fun selected_paid => free_campaigns ++ selected_paid)

/-- Total cost of the paid entries of a recommendation list. -/
def paid_cost (l : List Campaign) : ℚ :=
  ((l.filter (fun c => c.is_paid)).map (fun c => c.estimated_cost)).sum

/-- Total cost of a recommendation list (`main.py` line 57). -/
def total_cost (l : List Campaign) : ℚ :=
  (l.map (fun c => c.estimated_cost)).sum

/-- Total cost of the free entries (`main.py` line 58). -/
def free_cost (l : List Campaign) : ℚ :=
  ((l.filter (fun c => !c.is_paid)).map (fun c => c.estimated_cost)).sum

/-- The `"無料施策"` (free) share of `budget_allocation` in
`suggest_campaigns` (`main.py` lines 61-64): `free_cost / total_cost`
when the total cost is positive, else `0`. -/
def budget_allocation_free (l : List Campaign) : ℚ :=
  if total_cost l > 0 then free_cost l / total_cost l else 0

/-- The `"有料施策"` (paid) share of `budget_allocation`
(`main.py` lines 61-64). -/
def budget_allocation_paid (l : List Campaign) : ℚ :=
  if total_cost l > 0 then paid_cost l / total_cost l else 0

/-- The `budget` field constraint of `EventRequest`
(`event_model.py` line 30): `Field(..., gt=0)` — pydantic accepts the
request only when the budget is strictly positive. -/
def event_request_budget_valid (b : ℤ) : Bool := decide (0 < b)

/-- Candidate dict of `EnhancedRecommendationEngine` (`name`, `type`
(`"free"`/`"paid"`), `channel`, `base_reach`, `base_conversion_rate`,
`cost`, `confidence`, `applied_knowledge` as title/impact pairs). -/
structure ECand where
  name : String
  ctype : String
  channel : String
  base_reach : ℤ
  base_conversion_rate : ℚ
  cost : ℚ
  confidence : ℚ
  applied_knowledge : List (String × ℚ)
deriving DecidableEq

/-- Knowledge entry as read by `_apply_knowledge_insights`
(`title`, `content`, `impact_score`). -/
structure Knowledge where
  title : String
  content : String
  impact_score : ℚ
deriving DecidableEq

/-- Stable descending sort of the paid candidates by
`confidence * base_conversion_rate`
(`_optimize_budget_allocation` lines 221-224, `reverse=True`). -/
def en_sort_paid (l : List ECand) : List ECand :=
  l.mergeSort (fun a b =>
    decide (b.confidence * b.base_conversion_rate ≤
            a.confidence * a.base_conversion_rate))

/-- The scaled copy built in the partial-fill branch of
`EnhancedRecommendationEngine._optimize_budget_allocation`
(lines 236-240): cost becomes the remaining budget, reach is scaled by
`remaining_budget / campaign['cost']` (the original cost: the ratio is
computed from the un-copied dict) and truncated. -/
def en_scaled_copy (c : ECand) (remaining_budget : ℚ) : ECand :=
  { c with cost := remaining_budget
           base_reach :=
             pyInt ((c.base_reach : ℚ) * (remaining_budget / c.cost)) }

/-- Selection loop of
`EnhancedRecommendationEngine._optimize_budget_allocation`
(lines 230-242): take a candidate whose cost fits the remaining budget;
otherwise, when more than 10% of the total budget remains, append one
scaled copy and break; otherwise skip the candidate and continue. -/
def en_alloc_go (budget : ℚ) : List ECand → ℚ → List ECand
  | [], _ => []
  | c :: rest, remaining =>
    if c.cost ≤ remaining then c :: en_alloc_go budget rest (remaining - c.cost)
    else if remaining > budget * (1/10) then [en_scaled_copy c remaining]
    else en_alloc_go budget rest remaining

/-- `EnhancedRecommendationEngine._optimize_budget_allocation`: free
candidates are always kept; with no paid candidates or a zero budget
only the free ones are returned; otherwise the paid candidates are
sorted by `confidence * base_conversion_rate` (descending) and selected
by `en_alloc_go`. -/
def en_optimize_budget_allocation (candidates : List ECand) (budget : ℚ) :
    List ECand :=
  let free_campaigns := candidates.filter (fun c => c.ctype = "free")
  let paid_campaigns := candidates.filter (fun c => c.ctype = "paid")
  if paid_campaigns = [] ∨ budget = 0 then free_campaigns
  else free_campaigns ++ en_alloc_go budget (en_sort_paid paid_campaigns) budget

/-- Total cost of the `"paid"`-typed entries of an enhanced-engine list. -/
def en_paid_cost (l : List ECand) : ℚ :=
  ((l.filter (fun c => c.ctype = "paid")).map (fun c => c.cost)).sum

/-- Python `str.lower()` applied characterwise. -/
def lower_str (s : String) : String := ⟨s.data.map Char.toLower⟩

/-- The channel-keyword table of
`_is_knowledge_applicable_to_campaign` (lines 295-300). -/
def channel_keywords (channel : String) : List String :=
  if channel = "email" then ["メール", "mail", "メルマガ"]
  else if channel = "paid_social" then ["meta", "facebook", "instagram", "sns広告"]
  else if channel = "paid_search" then ["google", "検索広告", "リスティング"]
  else if channel = "event_platform" then
    ["techplay", "connpass", "イベントプラットフォーム"]
  else []

/-- The channels that are keys of the keyword table. -/
def keyword_channels : List String :=
  ["email", "paid_social", "paid_search", "event_platform"]

/-- `EnhancedRecommendationEngine._is_knowledge_applicable_to_campaign`:
for a channel in the keyword table, some keyword occurs in the lowered
content; for any other channel, the lowered campaign name occurs in the
lowered content. -/
def is_knowledge_applicable_to_campaign (k : Knowledge) (c : ECand) : Bool :=
  let content := (lower_str k.content).data
  let campaign_name := (lower_str c.name).data
  if c.channel ∈ keyword_channels then
    (channel_keywords c.channel).any (fun kw => decide (kw.data <:+: content))
  else decide (campaign_name <:+: content)

/-- Mutation applied to one candidate by one matching knowledge entry
(`_apply_knowledge_insights` lines 272-282): reach is scaled by
`1 + (impact - 1) * 0.2` and truncated, the conversion rate by
`1 + (impact - 1) * 0.3`, and the title/impact pair is appended. -/
def apply_one_knowledge (c : ECand) (k : Knowledge) : ECand :=
  let impact := k.impact_score
  { c with
      base_reach := pyInt ((c.base_reach : ℚ) * (1 + (impact - 1) * (2/10)))
      base_conversion_rate := c.base_conversion_rate * (1 + (impact - 1) * (3/10))
      applied_knowledge := c.applied_knowledge ++ [(k.title, impact)] }

/-- `EnhancedRecommendationEngine._apply_knowledge_insights`: each
candidate is mutated, in store order, by every knowledge entry
applicable to it. -/
def apply_knowledge_insights (campaigns : List ECand)
    (knowledge_list : List Knowledge) : List ECand :=
  campaigns.map (fun c =>
    knowledge_list.foldl (fun c k =>
      if is_knowledge_applicable_to_campaign k c then apply_one_knowledge c k
      else c) c)

/-- Python string comparison `<` (lexicographic on code points), used by
`tuple(sorted([channel1, channel2]))` in `_adjust_for_reach_overlap`. -/
def str_lt : List Char → List Char → Bool
  | [], [] => false
  | [], _ :: _ => true
  | _ :: _, [] => false
  | a :: as, b :: bs => if a < b then true else if b < a then false else str_lt as bs

/-- `tuple(sorted([channel1, channel2]))`: the two channel values in
nondecreasing lexicographic order. -/
def sorted_channel_key (a b : String) : String × String :=
  if str_lt b.data a.data then (b, a) else (a, b)

/-- The `overlap_factors` dict of
`PredictionEngine._adjust_for_reach_overlap` (lines 70-75); `0` stands
for a key that is absent. -/
def overlap_factors (k : String × String) : ℚ :=
  if k = ("email_marketing", "social_media") then 3/10
  else if k = ("email_marketing", "paid_advertising") then 2/10
  else if k = ("social_media", "paid_advertising") then 4/10
  else if k = ("organic_search", "paid_advertising") then 1/10
  else 0

/-- Inner loop of `_adjust_for_reach_overlap`: for a fixed channel,
subtract `factor * 0.1` for each later channel whose sorted pair is in
the table. -/
def overlap_inner (c1 : String) (rest : List String) (adj : ℚ) : ℚ :=
  rest.foldl (fun a c2 => a - overlap_factors (sorted_channel_key c1 c2) * (1/10)) adj

/-- Outer loop of `_adjust_for_reach_overlap` over all index pairs
`i < j` of the channel list. -/
def overlap_outer : List String → ℚ → ℚ
  | [], adj => adj
  | c :: rest, adj => overlap_outer rest (overlap_inner c rest adj)

/-- `PredictionEngine._adjust_for_reach_overlap`: total reach times the
pair-adjusted multiplier, floored at 0.6. -/
def adjust_for_reach_overlap (campaigns : List Campaign) : ℚ :=
  let total_reach : ℚ := ((campaigns.map (fun c => c.estimated_reach)).sum : ℤ)
  let channels := campaigns.map (fun c => channel_value c.channel)
  total_reach * max (6/10) (overlap_outer channels 1)

/-- `PredictionEngine._adjust_for_conversion_overlap` (lines 88-111):
total conversions times 0.85, times the event-type factor, times the
free/paid price factor, floored at 1. -/
def adjust_for_conversion_overlap (campaigns : List Campaign)
    (event_category : String) (is_free_event : Bool) : ℚ :=
  let total_conversions : ℚ :=
    ((campaigns.map (fun c => c.estimated_conversions)).sum : ℤ)
  let event_factor : ℚ :=
    if event_category = "webinar" then 11/10
    else if event_category = "conference" then 9/10
    else if event_category = "workshop" then 19/20
    else if event_category = "seminar" then 1
    else 1
  let price_factor : ℚ := if is_free_event then 6/5 else 4/5
  max 1 (total_conversions * (17/20) * event_factor * price_factor)

/-- The `total_conversions` field of the `PerformancePrediction` built in
`predict_performance` (line 55): `int(adjusted_conversions)`. -/
def predicted_total_conversions (campaigns : List Campaign)
    (event_category : String) (is_free_event : Bool) : ℤ :=
  pyInt (adjust_for_conversion_overlap campaigns event_category is_free_event)

/-- Historical event fields read by
`_calculate_goal_achievement_probability`. -/
structure HistEvent where
  category : String
  target_attendees : ℤ
  actual_attendees : ℤ
deriving DecidableEq

/-- Success predicate on a historical event:
`actual_attendees >= target_attendees * 0.8`. -/
def hist_success (e : HistEvent) : Bool :=
  decide ((e.actual_attendees : ℚ) ≥ (e.target_attendees : ℚ) * (8/10))

/-- `PredictionEngine._calculate_goal_achievement_probability`
(lines 133-163): base probability `min 1 (conversions / target)`; when
some historical event shares the request's category, the base is blended
as `base * 0.7 + success_rate * 0.3` with the same-category success
fraction; the result is `min 1 (base * 0.85)`. -/
def calculate_goal_achievement_probability (event_category : String)
    (target_attendees : ℤ) (predicted_conversions : ℚ)
    (historical_events : List HistEvent) : ℚ :=
  let base_probability := min 1 (predicted_conversions / (target_attendees : ℚ))
  let base :=
    if historical_events ≠ [] then
      let similar_events :=
        historical_events.filter (fun e => e.category = event_category)
      if similar_events ≠ [] then
        let success_rate : ℚ :=
          ((similar_events.filter hist_success).length : ℚ) /
            (similar_events.length : ℚ)
        base_probability * (7/10) + success_rate * (3/10)
      else base_probability
    else base_probability
  min 1 (base * (17/20))

/-- Modelled from the claim's words, for comparison with the source:
`clamp((0.7*min(1, conversions/target) + 0.3*historicalSuccessRate)*0.85, 0, 1)`
where `historicalSuccessRate` is the same-category success fraction and
`0` when there is no same-category event. -/
def goal_probability_claimed (event_category : String)
    (target_attendees : ℤ) (predicted_conversions : ℚ)
    (historical_events : List HistEvent) : ℚ :=
  let similar_events :=
    historical_events.filter (fun e => e.category = event_category)
  let success_rate : ℚ :=
    if similar_events = [] then 0
    else ((similar_events.filter hist_success).length : ℚ) /
      (similar_events.length : ℚ)
  max 0 (min 1
    (((7/10) * min 1 (predicted_conversions / (target_attendees : ℚ)) +
      (3/10) * success_rate) * (17/20)))

/-- Total cost of an enhanced-engine candidate list. -/
def e_cost_sum (l : List ECand) : ℚ := (l.map (fun c => c.cost)).sum

/-- The reachable part of the `overlap_factors` table: its
`("social_media", "paid_advertising")` entry is stated in the source in
unsorted order, while every lookup key is sorted, so that entry can
never be hit; the effective table has the other three entries. -/
def overlap_factors_eff (k : String × String) : ℚ :=
  if k = ("email_marketing", "social_media") then 3/10
  else if k = ("email_marketing", "paid_advertising") then 2/10
  else if k = ("organic_search", "paid_advertising") then 1/10
  else 0

/-- Sum of the table factors over all index pairs `i < j` of a channel
list (each pair looked up under its sorted key). -/
def pair_factor_sum : List String → ℚ
  | [] => 0
  | c :: rest =>
    (rest.map (fun d => overlap_factors (sorted_channel_key c d))).sum +
      pair_factor_sum rest

/-- Sum of the effective (reachable) table factors over all index pairs
`i < j` of a channel list. -/
def eff_pair_sum : List String → ℚ
  | [] => 0
  | c :: rest =>
    (rest.map (fun d => overlap_factors_eff (sorted_channel_key c d))).sum +
      eff_pair_sum rest

/-- A media entry whose minimum cost is zero (a value the
`MediaPerformance` model does not forbid). -/
def media_zero_cost : Media :=
  { cost_min := 0, reach_potential := 100, average_ctr := 1, average_cvr := 1
    average_cpa := 500, compatibility_score := 1/2 }

/-- A media entry with large ctr/cvr percentages (values the reference
datasets do not forbid). -/
def media_high_rates : Media :=
  { cost_min := 100000, reach_potential := 100, average_ctr := 500
    average_cvr := 300, average_cpa := 100, compatibility_score := 1/2 }

/-- A finalized social-media recommendation with reach 100. -/
def social_demo : Campaign :=
  { channel := .social_media, is_paid := false, estimated_cost := 0
    estimated_reach := 100, estimated_ctr := 1, estimated_cvr := 1
    estimated_conversions := 1, estimated_cpa := 0, confidence_score := 1 }

/-- A finalized paid-advertising recommendation with reach 100. -/
def paid_demo : Campaign := { social_demo with channel := .paid_advertising, is_paid := true }

/-- A finalized email recommendation with reach 100. -/
def email_demo : Campaign := { social_demo with channel := .email_marketing }

/-- A paid candidate with positive conversions and cpa `0`. -/
def camp_zero_cpa : Campaign :=
  { channel := .paid_advertising, is_paid := true, estimated_cost := 0
    estimated_reach := 100, estimated_ctr := 1, estimated_cvr := 1
    estimated_conversions := 5, estimated_cpa := 0, confidence_score := 1 }

/-- A paid candidate with positive conversions and cpa `100`. -/
def camp_pos_cpa : Campaign := { camp_zero_cpa with estimated_cpa := 100 }

/-- A paid candidate with zero conversions. -/
def camp_no_conv : Campaign := { camp_zero_cpa with estimated_conversions := 0 }

/-- Enhanced-engine paid candidate: cost 90, sort weight 0.027. -/
def ecand_a : ECand :=
  { name := "A", ctype := "paid", channel := "other", base_reach := 1000
    base_conversion_rate := 3/100, cost := 90, confidence := 9/10
    applied_knowledge := [] }

/-- Enhanced-engine paid candidate: cost 200, sort weight 0.024. -/
def ecand_b : ECand := { ecand_a with name := "B", cost := 200, confidence := 8/10 }

/-- Enhanced-engine paid candidate: cost 10, sort weight 0.021. -/
def ecand_c : ECand := { ecand_a with name := "C", cost := 10, confidence := 7/10 }

/-- A free candidate on channel `"social"`, which is not a key of the
keyword table. -/
def sns_candidate : ECand :=
  { name := "SNS Posting", ctype := "free", channel := "social"
    base_reach := 1000, base_conversion_rate := 1/50, cost := 0
    confidence := 4/5, applied_knowledge := [] }

/-- A knowledge entry whose content contains no channel keyword but does
contain the candidate name "SNS Posting". -/
def sns_knowledge : Knowledge :=
  { title := "Tip", content := "improve SNS Posting results", impact_score := 2 }

/-- A free candidate on channel `"email"`, a key of the keyword table. -/
def email_candidate : ECand :=
  { name := "Newsletter blast", ctype := "free", channel := "email"
    base_reach := 5000, base_conversion_rate := 1/25, cost := 0
    confidence := 9/10, applied_knowledge := [] }

/-- A knowledge entry whose content contains no channel keyword and no
candidate name. -/
def unrelated_knowledge : Knowledge :=
  { title := "Venue", content := "book the venue early", impact_score := 2 }

theorem pyInt_of_nonneg {q : ℚ} (h : 0 ≤ q) : pyInt q = ⌊q⌋ := by
  simp [pyInt, h]

theorem pyInt_nonneg {q : ℚ} (h : 0 ≤ q) : 0 ≤ pyInt q := by
  rw [pyInt_of_nonneg h]; exact Int.floor_nonneg.mpr h

theorem pyInt_le_of_le {q : ℚ} {n : ℤ} (h0 : 0 ≤ q) (h : q ≤ (n : ℚ)) :
    pyInt q ≤ n := by
  rw [pyInt_of_nonneg h0]
  have := Int.floor_le_floor h
  simpa using this

theorem one_le_pyInt {q : ℚ} (h : 1 ≤ q) : 1 ≤ pyInt q := by
  rw [pyInt_of_nonneg (le_trans zero_le_one h)]
  exact_mod_cast Int.le_floor.mpr (by exact_mod_cast h)

/-- C10: for every recommendation list (the empty one and
zero-conversion portfolios included), every event category and price
flag, the predicted `total_conversions` is at least 1: the
conversion-overlap adjustment floors its result at 1 before the final
truncation. -/
theorem c10_total_conversions_at_least_one
    (campaigns : List Campaign) (event_category : String)
    (is_free_event : Bool) :
    1 ≤ predicted_total_conversions campaigns event_category is_free_event := by
  unfold predicted_total_conversions adjust_for_conversion_overlap
  exact one_le_pyInt (le_max_left 1 _)

/-- C2 (counterexample): at target 10, adjusted conversions 10 and an
empty historical list, the source computes 0.85 while the claimed
formula (blending with historical success rate 0) gives 0.595. -/
theorem c2_counterexample :
    calculate_goal_achievement_probability "seminar" 10 10 [] = 17/20 ∧
    goal_probability_claimed "seminar" 10 10 [] = 119/200 ∧
    (17/20 : ℚ) ≠ 119/200 := by
  refine ⟨?_, ?_, by norm_num⟩
  · norm_num [calculate_goal_achievement_probability]
  · norm_num [goal_probability_claimed, List.filter]

/-- C2 (amended): when at least one historical event shares the
request's category, the goal-achievement probability equals the claimed
clamped blend `clamp((0.7*min(1,conv/target) + 0.3*successRate)*0.85, 0, 1)`
(success measured against each event's own `0.8 * target`); when no
same-category event exists the blend is skipped entirely and the result
is `clamp(min(1,conv/target)*0.85, 0, 1)`, not a blend with rate 0. -/
theorem c2_goal_probability_characterization (event_category : String)
    (target_attendees : ℤ) (predicted_conversions : ℚ)
    (historical_events : List HistEvent)
    (ht : 0 < target_attendees) (hc : 0 ≤ predicted_conversions) :
    calculate_goal_achievement_probability event_category target_attendees
        predicted_conversions historical_events =
      if historical_events.filter (fun e => e.category = event_category) = []
      then max 0 (min 1
        (min 1 (predicted_conversions / (target_attendees : ℚ)) * (17/20)))
      else goal_probability_claimed event_category target_attendees
        predicted_conversions historical_events := by
  have htq : (0 : ℚ) < (target_attendees : ℚ) := by exact_mod_cast ht
  have hbase : 0 ≤ min 1 (predicted_conversions / (target_attendees : ℚ)) :=
    le_min zero_le_one (div_nonneg hc htq.le)
  unfold calculate_goal_achievement_probability goal_probability_claimed
  by_cases hsim :
      historical_events.filter (fun e => e.category = event_category) = []
  · have hmin : 0 ≤ min 1
        (min 1 (predicted_conversions / (target_attendees : ℚ)) * (17/20)) :=
      le_min zero_le_one (by positivity)
    rw [if_pos hsim, max_eq_right hmin]
    rcases eq_or_ne historical_events [] with hh | hh
    · simp [hh]
    · simp [hh, hsim]
  · have hne : historical_events ≠ [] := by
      intro h; exact hsim (by simp [h])
    have hlen : (0 : ℚ) <
        ((historical_events.filter (fun e => e.category = event_category)).length : ℚ) := by
      have := List.length_pos.mpr hsim
      exact_mod_cast this
    have hrate : 0 ≤
        (((historical_events.filter (fun e => e.category = event_category)).filter
            hist_success).length : ℚ) /
          ((historical_events.filter (fun e => e.category = event_category)).length : ℚ) :=
      div_nonneg (by positivity) hlen.le
    have hmin : 0 ≤ min 1
        (((7/10) * min 1 (predicted_conversions / (target_attendees : ℚ)) +
          (3/10) *
            ((((historical_events.filter (fun e => e.category = event_category)).filter
                hist_success).length : ℚ) /
              ((historical_events.filter (fun e => e.category = event_category)).length : ℚ))) *
          (17/20)) :=
      le_min zero_le_one (by positivity)
    rw [if_neg hsim]
    simp only [ne_eq, hne, not_false_eq_true, if_true, hsim, if_false, ite_false,
      ite_true, max_eq_right hmin]
    ring_nf

/-- Witness for `c2_goal_probability_characterization` at category
"seminar", target 10, adjusted conversions 10 and no history. -/
theorem c2_goal_probability_witness :
    (0 : ℤ) < 10 ∧ (0 : ℚ) ≤ 10 ∧
    calculate_goal_achievement_probability "seminar" 10 10 [] =
      if ([] : List HistEvent).filter (fun e => e.category = "seminar") = []
      then max 0 (min 1 (min 1 ((10 : ℚ) / ((10 : ℤ) : ℚ)) * (17/20)))
      else goal_probability_claimed "seminar" 10 10 [] :=
  ⟨by norm_num, by norm_num,
    c2_goal_probability_characterization "seminar" 10 10 [] (by norm_num)
      (by norm_num)⟩

theorem overlap_inner_eq (c1 : String) (rest : List String) (a : ℚ) :
    overlap_inner c1 rest a =
      a - (1/10) *
        (rest.map (fun d => overlap_factors (sorted_channel_key c1 d))).sum := by
  induction rest generalizing a with
  | nil => simp [overlap_inner]
  | cons d ds ih =>
    have step : overlap_inner c1 (d :: ds) a =
        overlap_inner c1 ds (a - overlap_factors (sorted_channel_key c1 d) * (1/10)) := by
      simp [overlap_inner]
    rw [step, ih]
    simp only [List.map_cons, List.sum_cons]
    ring

theorem overlap_outer_eq (l : List String) (a : ℚ) :
    overlap_outer l a = a - (1/10) * pair_factor_sum l := by
  induction l generalizing a with
  | nil => simp [overlap_outer, pair_factor_sum]
  | cons c rest ih =>
    rw [overlap_outer, ih, overlap_inner_eq, pair_factor_sum]
    ring

theorem sorted_channel_key_ne_social_paid (a b : String) :
    sorted_channel_key a b ≠ ("social_media", "paid_advertising") := by
  unfold sorted_channel_key
  split
  · rename_i hlt
    intro h
    rw [Prod.mk.injEq] at h
    obtain ⟨hb, ha⟩ := h
    subst hb; subst ha
    exact absurd hlt (by decide)
  · rename_i hlt
    intro h
    rw [Prod.mk.injEq] at h
    obtain ⟨ha, hb⟩ := h
    subst hb; subst ha
    exact hlt (by decide)

theorem overlap_factor_dead_entry (a b : String) :
    overlap_factors (sorted_channel_key a b) =
      overlap_factors_eff (sorted_channel_key a b) := by
  unfold overlap_factors overlap_factors_eff
  rw [if_neg (sorted_channel_key_ne_social_paid a b)]

theorem pair_factor_sum_eq_eff (l : List String) :
    pair_factor_sum l = eff_pair_sum l := by
  induction l with
  | nil => rfl
  | cons c rest ih =>
    rw [pair_factor_sum, eff_pair_sum, ih,
      List.map_congr_left (fun d _ => overlap_factor_dead_entry c d)]

/-- C3 (amended): the reach-overlap multiplier is
`1 - 0.1 * Σ factors` over all index pairs `i < j` of the campaign
list — so a channel pair shared by several campaigns contributes once
per pair of campaigns, not once per pair of channels — with the factor
looked up in the effective table
{(email_marketing,social_media): 0.3, (email_marketing,paid_advertising): 0.2,
(organic_search,paid_advertising): 0.1} under the lexicographically
sorted key; the source's (social_media,paid_advertising): 0.4 entry is
unreachable because that key is not sorted.  The multiplier is floored
at 0.6 and multiplies total reach. -/
theorem c3_reach_overlap_characterization (campaigns : List Campaign) :
    adjust_for_reach_overlap campaigns =
      (((campaigns.map (fun c => c.estimated_reach)).sum : ℤ) : ℚ) *
        max (6/10)
          (1 - (1/10) *
            eff_pair_sum (campaigns.map (fun c => channel_value c.channel))) := by
  unfold adjust_for_reach_overlap
  simp only []
  rw [overlap_outer_eq, pair_factor_sum_eq_eff]

/-- C3 (counterexample): a social-media and a paid-advertising
recommendation, reach 100 each, keep adjusted reach 200 — the claimed
(social, paid) factor 0.4 is never applied — and duplicated channels
count once per campaign pair: [email, email, social] with reach 100
each gives 300 * (1 - 0.03 - 0.03) = 282, not the claimed
300 * 0.97 = 291. -/
theorem c3_counterexample :
    adjust_for_reach_overlap [social_demo, paid_demo] = 200 ∧
    (200 : ℚ) ≠ (1 - (4/10) * (1/10)) * 200 ∧
    adjust_for_reach_overlap [email_demo, email_demo, social_demo] = 282 ∧
    (282 : ℚ) ≠ (1 - (3/10) * (1/10)) * 300 := by
  refine ⟨?_, by norm_num, ?_, by norm_num⟩
  · norm_num +decide [adjust_for_reach_overlap, overlap_outer, overlap_inner,
      overlap_factors, sorted_channel_key, str_lt, channel_value, social_demo,
      paid_demo]
  · norm_num +decide [adjust_for_reach_overlap, overlap_outer, overlap_inner,
      overlap_factors, sorted_channel_key, str_lt, channel_value, social_demo,
      email_demo]

theorem co_alloc_go_cost_bound :
    ∀ (rest : List Campaign) (r : ℚ) (sel out : List Campaign), 0 ≤ r →
      co_alloc_go rest r sel = some out →
      total_cost out ≤ total_cost sel + r := by
  intro rest
  induction rest with
  | nil =>
    intro r sel out hr h
    rw [co_alloc_go] at h
    obtain rfl : sel = out := Option.some.inj h
    linarith
  | cons c rest ih =>
    intro r sel out hr h
    rw [co_alloc_go] at h
    by_cases h1 : r ≥ c.estimated_cost
    · rw [if_pos h1] at h
      by_cases h2 : c.estimated_cost = 0
      · rw [if_pos h2] at h; exact absurd h (by simp)
      · rw [if_neg h2] at h
        have hmin : min c.estimated_cost r = c.estimated_cost := min_eq_left h1
        have hcost : total_cost (sel ++ [co_adjusted c r]) =
            total_cost sel + c.estimated_cost := by
          simp [total_cost, co_adjusted, hmin]
        by_cases h3 : r - min c.estimated_cost r ≤ 0
        · rw [if_pos h3] at h
          obtain rfl : sel ++ [co_adjusted c r] = out := Option.some.inj h
          rw [hcost]; linarith
        · rw [if_neg h3] at h
          have hr' : 0 ≤ r - min c.estimated_cost r := le_of_lt (by linarith [not_le.mp h3])
          have := ih (r - min c.estimated_cost r) (sel ++ [co_adjusted c r]) out hr' h
          rw [hcost] at this
          rw [hmin] at this
          linarith
    · rw [if_neg h1] at h
      exact ih r sel out hr h

theorem co_alloc_go_all_paid :
    ∀ (rest : List Campaign) (r : ℚ) (sel out : List Campaign),
      (∀ c ∈ rest, c.is_paid = true) → (∀ c ∈ sel, c.is_paid = true) →
      co_alloc_go rest r sel = some out → ∀ c ∈ out, c.is_paid = true := by
  intro rest
  induction rest with
  | nil =>
    intro r sel out _ hsel h
    rw [co_alloc_go] at h
    obtain rfl : sel = out := Option.some.inj h
    exact hsel
  | cons c rest ih =>
    intro r sel out hrest hsel h
    rw [co_alloc_go] at h
    have hc : c.is_paid = true := hrest c (by simp)
    have hrest' : ∀ x ∈ rest, x.is_paid = true := fun x hx => hrest x (by simp [hx])
    have hsel' : ∀ x ∈ sel ++ [co_adjusted c r], x.is_paid = true := by
      intro x hx
      rcases List.mem_append.mp hx with hx | hx
      · exact hsel x hx
      · simp only [List.mem_singleton] at hx
        subst hx
        simpa [co_adjusted] using hc
    by_cases h1 : r ≥ c.estimated_cost
    · rw [if_pos h1] at h
      by_cases h2 : c.estimated_cost = 0
      · rw [if_pos h2] at h; exact absurd h (by simp)
      · rw [if_neg h2] at h
        by_cases h3 : r - min c.estimated_cost r ≤ 0
        · rw [if_pos h3] at h
          obtain rfl : sel ++ [co_adjusted c r] = out := Option.some.inj h
          exact hsel'
        · rw [if_neg h3] at h
          exact ih _ _ out hrest' hsel' h
    · rw [if_neg h1] at h
      exact ih r sel out hrest' hsel h

theorem en_alloc_go_cost_bound (budget : ℚ) :
    ∀ (l : List ECand) (r : ℚ), 0 ≤ r → e_cost_sum (en_alloc_go budget l r) ≤ r := by
  intro l
  induction l with
  | nil => intro r hr; simpa [en_alloc_go, e_cost_sum] using hr
  | cons c rest ih =>
    intro r hr
    rw [en_alloc_go]
    by_cases h1 : c.cost ≤ r
    · rw [if_pos h1]
      have hr' : 0 ≤ r - c.cost := sub_nonneg.mpr h1
      have := ih (r - c.cost) hr'
      simp only [e_cost_sum, List.map_cons, List.sum_cons]
      have hsum : e_cost_sum (en_alloc_go budget rest (r - c.cost)) =
          ((en_alloc_go budget rest (r - c.cost)).map (fun c => c.cost)).sum := rfl
      rw [hsum] at this
      linarith
    · rw [if_neg h1]
      by_cases h2 : r > budget * (1/10)
      · rw [if_pos h2]
        simp [e_cost_sum, en_scaled_copy]
      · rw [if_neg h2]
        exact ih r hr

theorem en_alloc_go_all_paid (budget : ℚ) :
    ∀ (l : List ECand) (r : ℚ), (∀ c ∈ l, c.ctype = "paid") →
      ∀ c ∈ en_alloc_go budget l r, c.ctype = "paid" := by
  intro l
  induction l with
  | nil => intro r _ c hc; simp [en_alloc_go] at hc
  | cons c rest ih =>
    intro r hl x hx
    rw [en_alloc_go] at hx
    have hc : c.ctype = "paid" := hl c (by simp)
    have hrest : ∀ y ∈ rest, y.ctype = "paid" := fun y hy => hl y (by simp [hy])
    by_cases h1 : c.cost ≤ r
    · rw [if_pos h1] at hx
      rcases List.mem_cons.mp hx with rfl | hx
      · exact hc
      · exact ih _ hrest x hx
    · rw [if_neg h1] at hx
      by_cases h2 : r > budget * (1/10)
      · rw [if_pos h2] at hx
        simp only [List.mem_singleton] at hx
        subst hx
        simpa [en_scaled_copy] using hc
      · rw [if_neg h2] at hx
        exact ih _ hrest x hx

theorem paid_cost_append (a b : List Campaign) :
    paid_cost (a ++ b) = paid_cost a + paid_cost b := by
  simp [paid_cost, List.filter_append]

theorem paid_cost_eq_zero_of_free (l : List Campaign)
    (h : ∀ c ∈ l, c.is_paid = false) : paid_cost l = 0 := by
  unfold paid_cost
  have : l.filter (fun c => c.is_paid) = [] := by
    rw [List.filter_eq_nil_iff]
    intro c hc
    simp [h c hc]
  simp [this]

theorem paid_cost_eq_total_of_paid (l : List Campaign)
    (h : ∀ c ∈ l, c.is_paid = true) : paid_cost l = total_cost l := by
  unfold paid_cost total_cost
  rw [List.filter_eq_self.mpr h]

theorem en_paid_cost_append (a b : List ECand) :
    en_paid_cost (a ++ b) = en_paid_cost a + en_paid_cost b := by
  simp [en_paid_cost, List.filter_append]

theorem en_paid_cost_eq_zero_of_free (l : List ECand)
    (h : ∀ c ∈ l, c.ctype = "free") : en_paid_cost l = 0 := by
  unfold en_paid_cost
  have : l.filter (fun c => c.ctype = "paid") = [] := by
    rw [List.filter_eq_nil_iff]
    intro c hc
    simp [h c hc]
  simp [this]

theorem en_paid_cost_eq_sum_of_paid (l : List ECand)
    (h : ∀ c ∈ l, c.ctype = "paid") : en_paid_cost l = e_cost_sum l := by
  unfold en_paid_cost e_cost_sum
  rw [List.filter_eq_self.mpr (by intro c hc; simp [h c hc])]

/-- C1: for every candidate list and non-negative budget, the paid cost
of the returned recommendation list is at most the budget, for both
allocators: whenever `CampaignOptimizer._optimize_budget_allocation`
returns (rather than raising), and always for
`EnhancedRecommendationEngine._optimize_budget_allocation`. -/
theorem c1_paid_cost_within_budget (candidates : List Campaign)
    (ecands : List ECand) (budget : ℚ) (hb : 0 ≤ budget) :
    (∀ result, co_optimize_budget_allocation candidates budget = some result →
      paid_cost result ≤ budget) ∧
    en_paid_cost (en_optimize_budget_allocation ecands budget) ≤ budget := by
  constructor
  · intro result h
    unfold co_optimize_budget_allocation at h
    simp only [Option.map_eq_some'] at h
    obtain ⟨sel, hgo, rfl⟩ := h
    have hfree : ∀ c ∈ candidates.filter (fun c => !c.is_paid), c.is_paid = false := by
      intro c hc
      have := (List.mem_filter.mp hc).2
      simpa using this
    have hpaid : ∀ c ∈ sort_paid_campaigns (candidates.filter (fun c => c.is_paid)),
        c.is_paid = true := by
      intro c hc
      unfold sort_paid_campaigns at hc
      have := (List.mergeSort_perm (candidates.filter (fun c => c.is_paid)) _).mem_iff.mp hc
      exact (List.mem_filter.mp this).2
    have hsel : ∀ c ∈ sel, c.is_paid = true :=
      co_alloc_go_all_paid _ budget [] sel hpaid (by intro c hc; simp at hc) hgo
    have hbound : total_cost sel ≤ total_cost [] + budget :=
      co_alloc_go_cost_bound _ budget [] sel hb hgo
    rw [paid_cost_append, paid_cost_eq_zero_of_free _ hfree,
      paid_cost_eq_total_of_paid _ hsel]
    simp only [total_cost, List.map_nil, List.sum_nil, zero_add] at hbound
    unfold total_cost
    linarith
  · unfold en_optimize_budget_allocation
    simp only []
    split_ifs with h
    · have hfree : ∀ c ∈ ecands.filter (fun c => c.ctype = "free"), c.ctype = "free" := by
        intro c hc
        have := (List.mem_filter.mp hc).2
        simpa using this
      rw [en_paid_cost_eq_zero_of_free _ hfree]
      exact hb
    · have hpaid : ∀ c ∈ en_sort_paid (ecands.filter (fun c => c.ctype = "paid")),
          c.ctype = "paid" := by
        intro c hc
        unfold en_sort_paid at hc
        have := (List.mergeSort_perm (ecands.filter (fun c => c.ctype = "paid")) _).mem_iff.mp hc
        have := (List.mem_filter.mp this).2
        simpa using this
      have hfree : ∀ c ∈ ecands.filter (fun c => c.ctype = "free"), c.ctype = "free" := by
        intro c hc
        have := (List.mem_filter.mp hc).2
        simpa using this
      rw [en_paid_cost_append, en_paid_cost_eq_zero_of_free _ hfree,
        en_paid_cost_eq_sum_of_paid _ (en_alloc_go_all_paid budget _ budget hpaid)]
      have := en_alloc_go_cost_bound budget
        (en_sort_paid (ecands.filter (fun c => c.ctype = "paid"))) budget hb
      linarith

/-- Witness for `c1_paid_cost_within_budget` on empty candidate lists
and budget 100. -/
theorem c1_witness :
    (0 : ℚ) ≤ 100 ∧
    co_optimize_budget_allocation [] 100 = some [] ∧
    paid_cost [] ≤ 100 ∧
    en_paid_cost (en_optimize_budget_allocation [] 100) ≤ 100 :=
  ⟨by norm_num,
    by simp [co_optimize_budget_allocation, sort_paid_campaigns, co_alloc_go],
    (c1_paid_cost_within_budget [] [] 100 (by norm_num)).1 []
      (by simp [co_optimize_budget_allocation, sort_paid_campaigns, co_alloc_go]),
    (c1_paid_cost_within_budget [] [] 100 (by norm_num)).2⟩

theorem conv_formula_bounds (r : ℤ) (ctr cvr : ℚ) (hr : 0 ≤ r)
    (hctr : 0 ≤ ctr) (hcvr : 0 ≤ cvr) (hprod : ctr * cvr ≤ 10000) :
    pyInt ((r : ℚ) * (ctr / 100) * (cvr / 100)) =
      ⌊(r : ℚ) * (ctr / 100) * (cvr / 100)⌋ ∧
    0 ≤ pyInt ((r : ℚ) * (ctr / 100) * (cvr / 100)) ∧
    pyInt ((r : ℚ) * (ctr / 100) * (cvr / 100)) ≤ r := by
  have hrq : (0 : ℚ) ≤ (r : ℚ) := by exact_mod_cast hr
  have hq : 0 ≤ (r : ℚ) * (ctr / 100) * (cvr / 100) := by positivity
  have hle : (r : ℚ) * (ctr / 100) * (cvr / 100) ≤ (r : ℚ) := by
    have h1 : (r : ℚ) * (ctr / 100) * (cvr / 100) = (r : ℚ) * ((ctr * cvr) / 10000) := by
      ring
    rw [h1]
    have h2 : (ctr * cvr) / 10000 ≤ 1 := by linarith
    nlinarith
  exact ⟨pyInt_of_nonneg hq, pyInt_nonneg hq, pyInt_le_of_le hq hle⟩

/-- C4 (amended): for every generated candidate, conversions equal
`⌊reach * ctr/100 * cvr/100⌋` (Python truncation agrees with floor here
because the product is non-negative) and `0 ≤ conversions ≤ reach` —
provided the reference data's ctr and cvr are non-negative with
`ctr * cvr ≤ 10000` (true of genuine percentages); for fully arbitrary
reference data the bound fails (see the counterexample). -/
theorem c4_conversion_bounds (n : ℤ) (hist_ctr hist_cvr : ℚ)
    (budget : ℚ) (media : List Media)
    (hn : 0 < n) (h1 : 0 ≤ hist_ctr) (h2 : 0 ≤ hist_cvr)
    (h3 : hist_ctr * hist_cvr ≤ 10000)
    (hm : ∀ m ∈ media, 0 ≤ m.reach_potential ∧ 0 ≤ m.average_ctr ∧
      0 ≤ m.average_cvr ∧ m.average_ctr * m.average_cvr ≤ 10000) :
    ∀ c ∈ generate_free_campaigns n hist_ctr hist_cvr ++
        generate_paid_campaigns budget media,
      c.estimated_conversions =
        ⌊(c.estimated_reach : ℚ) * (c.estimated_ctr / 100) *
          (c.estimated_cvr / 100)⌋ ∧
      0 ≤ c.estimated_conversions ∧
      c.estimated_conversions ≤ c.estimated_reach := by
  intro c hc
  rcases List.mem_append.mp hc with hc | hc
  · simp only [generate_free_campaigns, List.mem_cons, List.mem_singleton,
      List.not_mem_nil, or_false] at hc
    rcases hc with rfl | rfl | rfl
    · exact conv_formula_bounds _ _ _
        (le_min_iff.mpr ⟨by norm_num, by nlinarith⟩) h1 h2 h3
    · exact conv_formula_bounds _ _ _
        (le_min_iff.mpr ⟨by norm_num, by nlinarith⟩) (by norm_num) (by norm_num)
        (by norm_num)
    · exact conv_formula_bounds _ _ _
        (le_min_iff.mpr ⟨by norm_num, by nlinarith⟩) (by norm_num) (by norm_num)
        (by norm_num)
  · simp only [generate_paid_campaigns, List.mem_append, List.mem_map,
      List.mem_singleton] at hc
    rcases hc with ⟨m, hmm, rfl⟩ | rfl
    · obtain ⟨hr, hctr, hcvr, hp⟩ := hm m hmm
      exact conv_formula_bounds _ _ _ hr hctr hcvr hp
    · exact conv_formula_bounds _ _ _ (by norm_num) (by norm_num) (by norm_num)
        (by norm_num)

/-- Witness for `c4_conversion_bounds`: the listing-ads candidate at
target 100, historical ctr 2 / cvr 5, budget 500000 and no media. -/
theorem c4_witness :
    (0 : ℤ) < 100 ∧
    ((listing_campaign 500000).estimated_conversions =
      ⌊((listing_campaign 500000).estimated_reach : ℚ) *
        ((listing_campaign 500000).estimated_ctr / 100) *
        ((listing_campaign 500000).estimated_cvr / 100)⌋ ∧
     0 ≤ (listing_campaign 500000).estimated_conversions ∧
     (listing_campaign 500000).estimated_conversions ≤
       (listing_campaign 500000).estimated_reach) :=
  ⟨by norm_num,
   c4_conversion_bounds 100 2 5 500000 [] (by norm_num) (by norm_num)
     (by norm_num) (by norm_num) (by simp)
     (listing_campaign 500000)
     (List.mem_append.mpr (Or.inr (by simp [generate_paid_campaigns])))⟩

/-- C4 (counterexample): a media entry with average ctr 500 and cvr 300
(values the reference datasets do not forbid) yields a paid candidate
with 1500 conversions against reach 100, violating
`conversions ≤ reach`. -/
theorem c4_counterexample :
    ((generate_paid_campaigns 1000000 [media_high_rates]).map
      (fun c => (c.estimated_conversions, c.estimated_reach))).head? =
        some (1500, 100) ∧
    ¬ ((1500 : ℤ) ≤ 100) := by
  constructor
  · norm_num [generate_paid_campaigns, media_paid_campaign, media_high_rates, pyInt]
  · norm_num

/-- C5: with a positive (valid) budget and a media entry whose minimum
cost is 0, the paid candidate generated from it has `estimated_cost = 0`
and the allocation loop evaluates the unguarded ratio
`adjusted_cost / estimated_cost` as `0 / 0`, raising `ZeroDivisionError`
(modelled as `none`): the pipeline does raise, and this ratio is a
division that does not substitute 0. -/
theorem c5_division_by_zero_crash :
    co_optimize_budget_allocation
      (generate_paid_campaigns 1000 [media_zero_cost]) 1000 = none := by
  norm_num +decide [co_optimize_budget_allocation, generate_paid_campaigns,
    media_paid_campaign, listing_campaign, sort_paid_campaigns, cpa_sort_key,
    co_alloc_go, co_adjusted, pyInt, media_zero_cost, List.mergeSort, List.filter]

/-- C6 (counterexample): budget 100 with sorted paid candidates of
costs 90, 200, 10.  After selecting the 90-cost candidate exactly 10%
of the budget remains; the 200-cost candidate is reached, is not
partially filled (the source requires strictly more than 10%), is
skipped, and the later 10-cost candidate is still selected — refuting
both "at least 10% ⇒ scaled copy" and "no further candidates considered
in either case". -/
theorem c6_counterexample :
    en_optimize_budget_allocation [ecand_a, ecand_b, ecand_c] 100 =
      [ecand_a, ecand_c] ∧
    (100 : ℚ) - ecand_a.cost = 100 * (1/10) ∧
    ¬ (ecand_b.cost ≤ (100 : ℚ) - ecand_a.cost) ∧
    [ecand_a, ecand_c] ≠ [ecand_a, en_scaled_copy ecand_b 10] := by
  refine ⟨?_, ?_, ?_, ?_⟩
  · norm_num +decide [en_optimize_budget_allocation, en_sort_paid, en_alloc_go,
      List.mergeSort, List.filter, ecand_a, ecand_b, ecand_c]
  · norm_num [ecand_a]
  · norm_num [ecand_a, ecand_b]
  · norm_num +decide [ecand_b, ecand_c, ecand_a, en_scaled_copy, pyInt]

/-- C6 (amended): when the loop reaches a candidate whose cost exceeds
the remaining budget, then if strictly more than 10% of the total
budget remains, exactly one scaled copy of that candidate is appended
(cost = remaining budget, reach scaled by remaining/originalCost and
truncated) and iteration stops; otherwise the candidate is skipped and
iteration continues with the remaining candidates. -/
theorem c6_partial_fill_step (budget r : ℚ) (c : ECand) (rest : List ECand)
    (hover : ¬ (c.cost ≤ r)) :
    (budget * (1/10) < r →
      en_alloc_go budget (c :: rest) r = [en_scaled_copy c r] ∧
      (en_scaled_copy c r).cost = r ∧
      (en_scaled_copy c r).base_reach =
        pyInt ((c.base_reach : ℚ) * (r / c.cost))) ∧
    (¬ (budget * (1/10) < r) →
      en_alloc_go budget (c :: rest) r = en_alloc_go budget rest r) := by
  constructor
  · intro h10
    rw [en_alloc_go, if_neg hover, if_pos h10]
    exact ⟨rfl, rfl, rfl⟩
  · intro h10
    rw [en_alloc_go, if_neg hover, if_neg h10]

/-- Witness for `c6_partial_fill_step`: budget 100, remaining 50, the
200-cost candidate at the head. -/
theorem c6_partial_fill_witness :
    ¬ (ecand_b.cost ≤ (50 : ℚ)) ∧ (100 : ℚ) * (1/10) < 50 ∧
    (en_alloc_go 100 [ecand_b, ecand_c] 50 = [en_scaled_copy ecand_b 50] ∧
     (en_scaled_copy ecand_b 50).cost = 50 ∧
     (en_scaled_copy ecand_b 50).base_reach =
       pyInt ((ecand_b.base_reach : ℚ) * (50 / ecand_b.cost))) :=
  ⟨by norm_num [ecand_b, ecand_a], by norm_num,
    (c6_partial_fill_step 100 50 ecand_b [ecand_c]
      (by norm_num [ecand_b, ecand_a])).1 (by norm_num)⟩

/-- C7 (counterexample): a paid candidate with positive conversions and
cpa 0 sorts first, not last: the source's sort key treats only
zero-conversion candidates as infinity and keeps cpa ≤ 0 as an ordinary
(smallest) key. -/
theorem c7_counterexample :
    sort_paid_campaigns [camp_pos_cpa, camp_zero_cpa] =
      [camp_zero_cpa, camp_pos_cpa] ∧
    camp_zero_cpa.estimated_cpa ≤ 0 ∧
    0 < camp_zero_cpa.estimated_conversions ∧
    camp_zero_cpa ≠ camp_pos_cpa := by
  refine ⟨?_, by norm_num [camp_zero_cpa], by norm_num [camp_zero_cpa], ?_⟩
  · norm_num +decide [sort_paid_campaigns, List.mergeSort, cpa_sort_key,
      camp_zero_cpa, camp_pos_cpa]
  · norm_num +decide [camp_zero_cpa, camp_pos_cpa]

/-- C7 (amended): the paid candidates are stably sorted ascending by the
key "cpa if conversions > 0 else +infinity": the output is pairwise
nondecreasing in `cpa_sort_key`, is a permutation of the input, and a
candidate sorts as infinity exactly when its conversions are not
positive — a candidate with cpa ≤ 0 but positive conversions keeps its
cpa as key and therefore sorts first, not last. -/
theorem c7_sort_characterization (l : List Campaign) :
    List.Pairwise (fun a b => cpa_sort_key a ≤ cpa_sort_key b)
      (sort_paid_campaigns l) ∧
    (sort_paid_campaigns l).Perm l ∧
    (∀ c : Campaign, c.estimated_conversions ≤ 0 → cpa_sort_key c = ⊤) := by
  refine ⟨?_, List.mergeSort_perm l _, ?_⟩
  · have h := @List.sorted_mergeSort Campaign
      (fun a b : Campaign => decide (cpa_sort_key a ≤ cpa_sort_key b))
      (fun a b c hab hbc =>
        decide_eq_true (le_trans (of_decide_eq_true hab) (of_decide_eq_true hbc)))
      (fun a b => by
        rcases le_total (cpa_sort_key a) (cpa_sort_key b) with h | h <;> simp [h]) l
    exact h.imp (fun hab => of_decide_eq_true hab)
  · intro c hc
    simp [cpa_sort_key, not_lt.mpr hc]

/-- Witness for `c7_sort_characterization`: the zero-conversion
candidate's key is infinity. -/
theorem c7_witness :
    camp_no_conv.estimated_conversions ≤ 0 ∧ cpa_sort_key camp_no_conv = ⊤ :=
  ⟨by norm_num [camp_no_conv, camp_zero_cpa],
    (c7_sort_characterization [camp_no_conv]).2.2 camp_no_conv
      (by norm_num [camp_no_conv, camp_zero_cpa])⟩

/-- C8 (counterexample): when total cost is 0 the source's breakdown
reports 0 for the free share, not the claimed 1.0; and budget 0 is
rejected by the `EventRequest` validation (`gt=0`), not accepted. -/
theorem c8_counterexample :
    budget_allocation_free [] = 0 ∧ (0 : ℚ) ≠ 1 ∧
    event_request_budget_valid 0 = false := by
  refine ⟨?_, by norm_num, by decide⟩
  norm_num [budget_allocation_free, total_cost]

/-- C8 (amended): the breakdown (keyed by the Japanese labels 無料施策 /
有料施策) gives each type's share of total cost when the total is
positive, and reports 0 for both shares when the total cost is 0; the
`EventRequest.budget` field is validated with `gt=0`, so a request is
accepted only for a strictly positive budget and budget = 0 is
rejected. -/
theorem c8_allocation_characterization (recs : List Campaign) (b : ℤ) :
    (total_cost recs = 0 →
      budget_allocation_free recs = 0 ∧ budget_allocation_paid recs = 0) ∧
    (0 < total_cost recs →
      budget_allocation_free recs = free_cost recs / total_cost recs ∧
      budget_allocation_paid recs = paid_cost recs / total_cost recs) ∧
    (event_request_budget_valid b = true ↔ 0 < b) := by
  refine ⟨?_, ?_, ?_⟩
  · intro h
    unfold budget_allocation_free budget_allocation_paid
    rw [h]
    norm_num
  · intro h
    unfold budget_allocation_free budget_allocation_paid
    rw [if_pos h, if_pos h]
    exact ⟨rfl, rfl⟩
  · simp [event_request_budget_valid]

/-- Witness for `c8_allocation_characterization` on the empty
recommendation list. -/
theorem c8_witness :
    total_cost ([] : List Campaign) = 0 ∧
    budget_allocation_free [] = 0 ∧ budget_allocation_paid [] = 0 := by
  have h : total_cost ([] : List Campaign) = 0 := by simp [total_cost]
  exact ⟨h, (c8_allocation_characterization [] 1).1 h⟩

/-- C9 (counterexample): a knowledge entry whose content contains no
channel keyword still mutates a candidate whose channel (`"social"`) is
outside the keyword table, because for such channels the source falls
back to matching the candidate's name inside the content: the reach
changes from 1000 to 1200. -/
theorem c9_counterexample :
    (apply_knowledge_insights [sns_candidate] [sns_knowledge]).map
      (fun c => c.base_reach) = [1200] ∧
    sns_candidate.base_reach = 1000 ∧
    sns_candidate.channel ∉ keyword_channels ∧
    (1200 : ℤ) ≠ 1000 := by
  refine ⟨?_, by norm_num [sns_candidate], by decide, by norm_num⟩
  norm_num +decide [apply_knowledge_insights, apply_one_knowledge,
    is_knowledge_applicable_to_campaign, lower_str, channel_keywords,
    keyword_channels, sns_candidate, sns_knowledge, pyInt]

/-- C9 (amended): a knowledge entry leaves every candidate unchanged
provided that, for each candidate, either its channel is in the keyword
table and no keyword of that channel occurs in the lowered content, or
its channel is outside the table and the candidate's lowered name does
not occur in the lowered content.  (Keyword absence alone is not
enough: channels outside the table use name-containment instead.) -/
theorem c9_no_match_frame (campaigns : List ECand) (k : Knowledge)
    (h : ∀ c ∈ campaigns,
      (c.channel ∈ keyword_channels →
        ∀ kw ∈ channel_keywords c.channel,
          ¬ (kw.data <:+: (lower_str k.content).data)) ∧
      (c.channel ∉ keyword_channels →
        ¬ ((lower_str c.name).data <:+: (lower_str k.content).data))) :
    apply_knowledge_insights campaigns [k] = campaigns := by
  have happ : ∀ c ∈ campaigns, is_knowledge_applicable_to_campaign k c = false := by
    intro c hc
    unfold is_knowledge_applicable_to_campaign
    by_cases hch : c.channel ∈ keyword_channels
    · rw [if_pos hch]
      rw [List.any_eq_false]
      intro kw hkw
      simpa using decide_eq_false ((h c hc).1 hch kw hkw)
    · rw [if_neg hch]
      exact decide_eq_false ((h c hc).2 hch)
  unfold apply_knowledge_insights
  calc campaigns.map (fun c =>
        [k].foldl (fun c k =>
          if is_knowledge_applicable_to_campaign k c then apply_one_knowledge c k
          else c) c)
      = campaigns.map id :=
        List.map_congr_left (fun c hc => by simp [happ c hc])
    _ = campaigns := List.map_id _

/-- Witness for `c9_no_match_frame`: an email-channel candidate and a
knowledge entry with unrelated content. -/
theorem c9_witness :
    (∀ c ∈ [email_candidate],
      (c.channel ∈ keyword_channels →
        ∀ kw ∈ channel_keywords c.channel,
          ¬ (kw.data <:+: (lower_str unrelated_knowledge.content).data)) ∧
      (c.channel ∉ keyword_channels →
        ¬ ((lower_str c.name).data <:+:
            (lower_str unrelated_knowledge.content).data))) ∧
    apply_knowledge_insights [email_candidate] [unrelated_knowledge] =
      [email_candidate] :=
  ⟨by decide, c9_no_match_frame [email_candidate] unrelated_knowledge (by decide)⟩
